import Mathlib

/-!
Verification of the Quark host-networking core against its specification.

The definitions below are a shallow embedding of the Rust sources:
  * `src/qvisor/src/vmspace/HostFileMap/rdma_socket.rs` (RDMA data socket)
  * `src/qlib/kernel/taskMgr.rs` (work-stealing scheduler)
  * `src/qlib/kernel/socket/hostinet/socket.rs` (socket state machine)
Machine integers are modelled as `Nat`/`Int`; fallible operations return
`Except`; panics are modelled as explicit outcomes.  Where a subroutine is
declared outside the sources at hand (the shared `SocketBuff`, the scheduler
queue helpers of `task_mgr.rs`, `Timeval`), its contract is modelled from the
specification and the doc comment says so.
-/

namespace Quark

/-! ## RDMA data socket: credit-flow data path (rdma_socket.rs) -/

/-- The mutable members of the peer-buffer record `RDMAInfo` used by the data
path (`raddr`, `rlen`, `rkey` are fixed at handshake; `offset`, `freespace`,
`sending` are updated under the write lock). -/
structure RDMAInfo where
  raddr : Nat
  rlen : Nat
  rkey : Nat
  offset : Nat
  freespace : Nat
  sending : Bool
  deriving DecidableEq, Repr

/-- One issued RDMA WRITE_WITH_IMM work request, as passed to `RDMAWriteImm`. -/
structure WriteImmOp where
  localAddr : Nat
  remoteAddr : Nat
  writeCount : Nat
  immData : Nat
  rkey : Nat
  deriving DecidableEq, Repr

/-- `RDMADataSock::RDMASendLocked`.  `readCount` is the value returned by
`GetAndClearConsumeReadData`, `(addr, len0)` is the contiguous data region
returned by `writeBuf.GetDataBuf()`; both are inputs here because they are
read from the shared `SocketBuff` at the top of the function.  Returns the
WRITE_IMM issued (if any) and the updated remote info. -/
def RDMASendLockedM (info : RDMAInfo) (readCount addr len0 : Nat) :
    Option WriteImmOp × RDMAInfo :=
  if 0 < readCount ∨ 0 < len0 then
    let len := if info.freespace < len0 then info.freespace else len0
    if len ≠ 0 ∨ 0 < readCount then
      (some { localAddr := addr, remoteAddr := info.raddr + info.offset,
              writeCount := len, immData := readCount, rkey := info.rkey },
       { info with freespace := info.freespace - len,
                   offset := (info.offset + len) % info.rlen,
                   sending := true })
    else
      (none, info)
  else
    (none, info)

/-- Modelled from the spec: `SocketBuff.ProduceAndGetFreeReadBuf(n)` advances
the read-half producer by `n` and returns `trigger = true` iff the ring
transitioned from empty to non-empty (`socket_buf.rs` is not part of this code
drop).  The read-half is represented by its used byte count. -/
def ProduceAndGetFreeReadBuf (used n : Nat) : Bool × Nat :=
  (decide (used = 0 ∧ 0 < n), used + n)

/-- Result of `ProcessRDMARecvWriteImm`: whether EVENT_IN was notified, whether
`RDMASendLocked` was invoked, the read-half used count, the remote info after
all updates, and the WRITE_IMM issued by the nested send (if any). -/
structure RecvImmOut where
  notifiedIn : Bool
  sendInvoked : Bool
  readBufUsed : Nat
  remote : RDMAInfo
  writeImm : Option WriteImmOp
  deriving DecidableEq, Repr

/-- `RDMADataSock::ProcessRDMARecvWriteImm(recvCount, writeConsumeCount)`.
One RECV WR is first reposted unconditionally (not tracked here).  The values
`readCount`, `addr`, `len0` are the `SocketBuff` readings that the nested
`RDMASendLocked` would obtain, passed through as inputs. -/
def ProcessRDMARecvWriteImmM (used : Nat) (remote : RDMAInfo)
    (recvCount writeConsumeCount readCount addr len0 : Nat) : RecvImmOut :=
  let p := if 0 < recvCount then ProduceAndGetFreeReadBuf used recvCount
           else (false, used)
  if 0 < writeConsumeCount then
    let strigger := decide (remote.freespace = 0)
    let mid := { remote with freespace := remote.freespace + writeConsumeCount }
    if strigger && !mid.sending then
      let s := RDMASendLockedM mid readCount addr len0
      { notifiedIn := p.1, sendInvoked := true, readBufUsed := p.2,
        remote := s.2, writeImm := s.1 }
    else
      { notifiedIn := p.1, sendInvoked := false, readBufUsed := p.2,
        remote := mid, writeImm := none }
  else
    { notifiedIn := p.1, sendInvoked := false, readBufUsed := p.2,
      remote := remote, writeImm := none }

/-! ## RDMA bootstrap I/O error latching (rdma_socket.rs) -/

/-- Modelled from the spec: `SocketBuff.SetErr` latches an errno and is sticky
once a non-zero error is latched (`socket_buf.rs` is not part of this code
drop).  The status is the latched errno, `0` meaning none. -/
def SetErr (old e : Nat) : Nat := if old = 0 then e else old

/-- `RDMADataSock::SendLocalRDMAInfo`: `ret` is the raw `write(2)` return and
`errno` the thread errno.  Output is the call result and the `SocketBuff` err
status after the call. -/
def SendLocalRDMAInfoM (sbErr : Nat) (ret : Int) (errno : Nat) :
    Except Nat Unit × Nat :=
  if ret < 0 then (Except.error errno, SetErr sbErr errno)
  else (Except.ok (), sbErr)

/-- `RDMADataSock::RecvRemoteRDMAInfo`: the `SetErr` call in its negative-return
branch is commented out in the source, so the err status is left unchanged. -/
def RecvRemoteRDMAInfoM (sbErr : Nat) (ret : Int) (errno : Nat) :
    Except Nat Unit × Nat :=
  if ret < 0 then (Except.error errno, sbErr)
  else (Except.ok (), sbErr)

/-- `RDMADataSock::SendAck`. -/
def SendAckM (sbErr : Nat) (ret : Int) (errno : Nat) :
    Except Nat Unit × Nat :=
  if ret < 0 then (Except.error errno, SetErr sbErr errno)
  else (Except.ok (), sbErr)

/-- `RDMADataSock::RecvAck`: on a negative return with `errno == EAGAIN` the
error is returned without latching; any other errno is latched first. -/
def RecvAckM (sbErr : Nat) (ret : Int) (errno : Nat) :
    Except Nat Unit × Nat :=
  if ret < 0 then
    if errno = 11 then (Except.error errno, sbErr)
    else (Except.error errno, SetErr sbErr errno)
  else (Except.ok (), sbErr)

end Quark

/-! ## C1: RDMASendLocked -/

/-- C1: for every call to `RDMASendLocked`, with `readCount` from
`GetAndClearConsumeReadData` and `(addr, len0)` the contiguous data region of
the local write-half, let `len = min len0 freespace`; if `len > 0` or
`readCount > 0` exactly one WRITE_IMM is issued carrying `len` payload bytes at
peer address `raddr + offset` with immediate data `readCount`, and afterwards
`offset´ = (offset + len) % rlen`, `freespace´ = freespace - len`,
`sending´ = true`; if `len0 = 0` and `readCount = 0` no WRITE_IMM is issued and
the remote info is unchanged. -/
theorem C1_rdma_send_locked (info : Quark.RDMAInfo) (readCount addr len0 : Nat) :
    (0 < min len0 info.freespace ∨ 0 < readCount →
      (Quark.RDMASendLockedM info readCount addr len0).1 =
        some { localAddr := addr, remoteAddr := info.raddr + info.offset,
               writeCount := min len0 info.freespace, immData := readCount,
               rkey := info.rkey } ∧
      (Quark.RDMASendLockedM info readCount addr len0).2 =
        { info with
            freespace := info.freespace - min len0 info.freespace,
            offset := (info.offset + min len0 info.freespace) % info.rlen,
            sending := true }) ∧
    (len0 = 0 ∧ readCount = 0 →
      (Quark.RDMASendLockedM info readCount addr len0).1 = none ∧
      (Quark.RDMASendLockedM info readCount addr len0).2 = info) := by
  have hmin : (if info.freespace < len0 then info.freespace else len0) =
      min len0 info.freespace := by
    split
    · exact (Nat.min_eq_right (by omega)).symm
    · exact (Nat.min_eq_left (by omega)).symm
  constructor
  · intro h
    simp only [Quark.RDMASendLockedM, hmin]
    split_ifs with h1 h2
    · exact ⟨rfl, rfl⟩
    · exfalso; omega
    · exfalso; omega
  · rintro ⟨h0, hr⟩
    subst h0; subst hr
    simp [Quark.RDMASendLockedM]

/-- Witness for C1 at a concrete input: 3 pending bytes, 10 bytes of remote
freespace, 2 bytes of credit to return. -/
theorem C1_rdma_send_locked_witness :
    (Quark.RDMASendLockedM ⟨100, 16, 7, 4, 10, false⟩ 2 55 3).1 =
      some { localAddr := 55, remoteAddr := 104, writeCount := min 3 10,
             immData := 2, rkey := 7 } :=
  ((C1_rdma_send_locked ⟨100, 16, 7, 4, 10, false⟩ 2 55 3).1 (by decide)).1

/-! ## C2: ProcessRDMARecvWriteImm -/

/-- C2: for every call `ProcessRDMARecvWriteImm(recvCount, writeConsumeCount)`:
if `recvCount > 0` the read-half producer is advanced by `recvCount` and
EVENT_IN is notified exactly when the read-half transitioned empty to
non-empty; if `writeConsumeCount > 0` then `freespace` is increased by
`writeConsumeCount`, and `RDMASendLocked` is invoked exactly when `freespace`
was zero before the increase and no WRITE_IMM is in flight (`sending` false). -/
theorem C2_process_rdma_recv_write_imm (used : Nat) (remote : Quark.RDMAInfo)
    (recvCount writeConsumeCount readCount addr len0 : Nat) :
    (Quark.ProcessRDMARecvWriteImmM used remote recvCount writeConsumeCount
        readCount addr len0).readBufUsed = used + recvCount ∧
    ((Quark.ProcessRDMARecvWriteImmM used remote recvCount writeConsumeCount
        readCount addr len0).notifiedIn = true ↔ 0 < recvCount ∧ used = 0) ∧
    ((Quark.ProcessRDMARecvWriteImmM used remote recvCount writeConsumeCount
        readCount addr len0).sendInvoked = true ↔
      0 < writeConsumeCount ∧ remote.freespace = 0 ∧ remote.sending = false) ∧
    (0 < writeConsumeCount →
      (Quark.ProcessRDMARecvWriteImmM used remote recvCount writeConsumeCount
          readCount addr len0).remote =
        (if 0 < writeConsumeCount ∧ remote.freespace = 0 ∧ remote.sending = false
         then (Quark.RDMASendLockedM
                { remote with freespace := remote.freespace + writeConsumeCount }
                readCount addr len0).2
         else { remote with freespace := remote.freespace + writeConsumeCount })) ∧
    (writeConsumeCount = 0 →
      (Quark.ProcessRDMARecvWriteImmM used remote recvCount writeConsumeCount
          readCount addr len0).remote = remote ∧
      (Quark.ProcessRDMARecvWriteImmM used remote recvCount writeConsumeCount
          readCount addr len0).writeImm = none) := by
  unfold Quark.ProcessRDMARecvWriteImmM Quark.ProduceAndGetFreeReadBuf
  rcases Nat.eq_zero_or_pos recvCount with hr | hr <;>
  rcases Nat.eq_zero_or_pos writeConsumeCount with hw | hw <;>
  rcases eq_or_ne remote.freespace 0 with hf | hf <;>
  cases hs : remote.sending <;>
  rcases eq_or_ne used 0 with hu | hu <;>
    simp_all

/-- Witness for C2 at a concrete input: a peer credit return of 5 bytes on a
socket with zero freespace and no send in flight kicks `RDMASendLocked`. -/
theorem C2_process_rdma_recv_write_imm_witness :
    (Quark.ProcessRDMARecvWriteImmM 0 ⟨100, 16, 7, 4, 0, false⟩ 3 5 2 55 1).sendInvoked
      = true :=
  (C2_process_rdma_recv_write_imm 0 ⟨100, 16, 7, 4, 0, false⟩ 3 5 2 55 1).2.2.1.mpr
    ⟨by decide, rfl, rfl⟩

/-! ## C3: bootstrap I/O error latching -/

/-- C3 counterexample: the claim says every negative return on a bootstrap
send/recv latches the errno via `SetErr`, but `RecvRemoteRDMAInfo` (whose
`SetErr` call is commented out in the source) leaves the err status unchanged
while still returning `SysError(errno)`. -/
theorem C3_error_latch_counterexample :
    ¬ (∀ (sbErr : Nat) (ret : Int) (errno : Nat), ret < 0 →
        (Quark.RecvRemoteRDMAInfoM sbErr ret errno).2 = Quark.SetErr sbErr errno) := by
  intro h
  have h104 := h 0 (-1) 104 (by decide)
  simp [Quark.RecvRemoteRDMAInfoM, Quark.SetErr] at h104

/-- C3 amended: on a negative return, `SendLocalRDMAInfo` and `SendAck` latch
the errno via `SetErr` and return `SysError(errno)`; `RecvAck` does the same
except that an `EAGAIN` errno is returned without latching; and
`RecvRemoteRDMAInfo` returns `SysError(errno)` without latching anything. -/
theorem C3_error_latch_amended (sbErr : Nat) (ret : Int) (errno : Nat)
    (hneg : ret < 0) :
    Quark.SendLocalRDMAInfoM sbErr ret errno =
      (Except.error errno, Quark.SetErr sbErr errno) ∧
    Quark.SendAckM sbErr ret errno =
      (Except.error errno, Quark.SetErr sbErr errno) ∧
    Quark.RecvAckM sbErr ret errno =
      (Except.error errno,
       if errno = 11 then sbErr else Quark.SetErr sbErr errno) ∧
    Quark.RecvRemoteRDMAInfoM sbErr ret errno = (Except.error errno, sbErr) := by
  unfold Quark.SendLocalRDMAInfoM Quark.SendAckM Quark.RecvAckM
    Quark.RecvRemoteRDMAInfoM
  rcases eq_or_ne errno 11 with he | he <;> simp [hneg, he]

/-- Witness for C3 amended at a concrete input. -/
theorem C3_error_latch_amended_witness :
    Quark.SendLocalRDMAInfoM 0 (-1) 104 =
      (Except.error 104, Quark.SetErr 0 104) ∧
    Quark.SendAckM 0 (-1) 104 = (Except.error 104, Quark.SetErr 0 104) ∧
    Quark.RecvAckM 0 (-1) 104 =
      (Except.error 104, if (104 : Nat) = 11 then 0 else Quark.SetErr 0 104) ∧
    Quark.RecvRemoteRDMAInfoM 0 (-1) 104 = (Except.error 104, 0) :=
  C3_error_latch_amended 0 (-1) 104 (by decide)

namespace Quark

/-! ## Scheduler (taskMgr.rs) -/

/-- The per-task scheduling data `GetNext` consults: the home vCPU
(`Task::QueueId`) and whether the saved context is ready
(`context.Ready() != 0`). -/
structure SchedTask where
  queueId : Nat
  ctxReady : Bool
  deriving DecidableEq, Repr

/-- Scheduler state: per-vCPU FIFO run-queues of task ids, the task store,
per-vCPU `VcpuState::Running` flags, the current task of the executing vCPU,
the global ready count, and a counter of `WakeOne` calls. -/
structure Scheduler where
  vcpuCnt : Nat
  queues : List (List Nat)
  tasks : Nat → SchedTask
  cpuRunning : List Bool
  currentTask : Nat
  readyCnt : Nat
  wakeOneCnt : Nat

def Scheduler.queueAt (s : Scheduler) (q : Nat) : List Nat := s.queues.getD q []

def Scheduler.setQueue (s : Scheduler) (q : Nat) (l : List Nat) : Scheduler :=
  { s with queues := s.queues.set q l }

def Scheduler.setQueueId (s : Scheduler) (tid q : Nat) : Scheduler :=
  { s with tasks := fun t => if t = tid then { s.tasks t with queueId := q }
                             else s.tasks t }

/-- `CPULocal::GetCPUState(vcpuId) == VcpuState::Running`. -/
def Scheduler.isRunning (s : Scheduler) (v : Nat) : Bool := s.cpuRunning.getD v false

/-- Modelled from the spec: `Scheduler::ScheduleQ` appends the task to the tail
of the vCPU run-queue and increments the global ready count, keeping the
invariant that the sum of queue lengths equals the ready count
(`qlib/task_mgr.rs` is not part of this code drop). -/
def Scheduler.scheduleQ (s : Scheduler) (tid q : Nat) : Scheduler :=
  let s1 := s.setQueue q (s.queueAt q ++ [tid])
  { s1 with readyCnt := s1.readyCnt + 1 }

/-- Modelled from the spec: `Scheduler::WakeOne` wakes a halted vCPU; only the
number of calls matters here (`qlib/task_mgr.rs` is not part of this code
drop). -/
def Scheduler.wakeOne (s : Scheduler) : Scheduler :=
  { s with wakeOneCnt := s.wakeOneCnt + 1 }

/-- `DecReadyTaskCount`. -/
def Scheduler.decReady (s : Scheduler) : Scheduler :=
  { s with readyCnt := s.readyCnt - 1 }

/-- The gate of `GetNextForCpu`: a popped task is handed out when its saved
context is ready or it is the current task of the executing vCPU. -/
def Scheduler.gatePass (s : Scheduler) (tid : Nat) : Bool :=
  (s.tasks tid).ctxReady || tid == s.currentTask

/-- The `for _ in 0..count` loop body of `Scheduler::GetNextForCpu`: pop the
front of queue `vcpuId`; a gate-passing task is returned (with its `QueueId`
rewritten when stolen, or a `WakeOne` when the own queue started with more than
one task); a non-ready task is re-queued and the loop continues. -/
def Scheduler.getNextLoop (currentCpuId vcpuId count : Nat) :
    Scheduler → Nat → Option Nat × Scheduler
  | s, 0 => (none, s)
  | s, fuel + 1 =>
    match s.queueAt vcpuId with
    | [] => (none, s)
    | tid :: rest =>
      let s1 := (s.setQueue vcpuId rest).decReady
      if s1.gatePass tid then
        if currentCpuId ≠ vcpuId then
          (some tid, s1.setQueueId tid currentCpuId)
        else if 1 < count then
          (some tid, s1.wakeOne)
        else
          (some tid, s1)
      else
        Scheduler.getNextLoop currentCpuId vcpuId count (s1.scheduleQ tid vcpuId) fuel

/-- `Scheduler::GetNextForCpu(currentCpuId, vcpuId)`: tasks are only stolen
from a running vCPU, except that queue 0 is exempt from the check
(`vcpuId != 0 && ...` in the source). -/
def Scheduler.getNextForCpu (s : Scheduler) (currentCpuId vcpuId : Nat) :
    Option Nat × Scheduler :=
  if vcpuId ≠ 0 ∧ currentCpuId ≠ vcpuId ∧ s.isRunning vcpuId = false then
    (none, s)
  else
    Scheduler.getNextLoop currentCpuId vcpuId (s.queueAt vcpuId).length s
      (s.queueAt vcpuId).length

/-- The scan of `Scheduler::GetNext` over a list of queue indices, threading
the state; the returned pair records the task and the queue it was taken
from. -/
def Scheduler.getNextScan (vcpuId : Nat) :
    Scheduler → List Nat → Option (Nat × Nat) × Scheduler
  | s, [] => (none, s)
  | s, q :: qs =>
    match Scheduler.getNextForCpu s vcpuId q with
    | (some t, s1) => (some (t, q), s1)
    | (none, s1) => Scheduler.getNextScan vcpuId s1 qs

/-- `Scheduler::GetNext` for the vCPU `vcpuId`: bail out when the global ready
count is zero, then try queue 0, then the queues
`(vcpuId + i) % vcpuCnt` for `i in 0..vcpuCnt`. -/
def Scheduler.getNext (s : Scheduler) (vcpuId : Nat) :
    Option (Nat × Nat) × Scheduler :=
  if s.readyCnt = 0 then (none, s)
  else
    Scheduler.getNextScan vcpuId s
      (0 :: (List.range s.vcpuCnt).map (fun i => (vcpuId + i) % s.vcpuCnt))

/-- Number of gate-passing ("ready") tasks in queue `q`. -/
def Scheduler.readyLen (s : Scheduler) (q : Nat) : Nat :=
  ((s.queueAt q).filter (fun tid => s.gatePass tid)).length

end Quark

/-! ## Scheduler helper lemmas -/

theorem list_set_getD_ne {α : Type} : ∀ (l : List α) (i j : Nat) (a d : α),
    i ≠ j → (l.set i a).getD j d = l.getD j d := by
  intro l
  induction l with
  | nil => intro i j a d _; simp
  | cons x xs ih =>
    intro i j a d hij
    cases i with
    | zero =>
      cases j with
      | zero => exact absurd rfl hij
      | succ m => simp
    | succ n =>
      cases j with
      | zero => simp
      | succ m => simpa using ih n m a d (by omega)

theorem list_set_getD_self {α : Type} : ∀ (l : List α) (i : Nat) (a d : α),
    i < l.length → (l.set i a).getD i d = a := by
  intro l
  induction l with
  | nil => intro i a d h; simp at h
  | cons x xs ih =>
    intro i a d h
    cases i with
    | zero => simp
    | succ n => simpa using ih n a d (by simpa using h)

theorem queueAt_setQueue_ne (s : Quark.Scheduler) (q r : Nat) (l : List Nat)
    (h : r ≠ q) : (s.setQueue q l).queueAt r = s.queueAt r := by
  unfold Quark.Scheduler.setQueue Quark.Scheduler.queueAt
  exact list_set_getD_ne s.queues q r l [] (fun e => h e.symm)

theorem queueAt_setQueue_self (s : Quark.Scheduler) (q : Nat) (l : List Nat)
    (h : q < s.queues.length) : (s.setQueue q l).queueAt q = l := by
  unfold Quark.Scheduler.setQueue Quark.Scheduler.queueAt
  exact list_set_getD_self s.queues q l [] h

theorem queueAt_nonempty_lt (s : Quark.Scheduler) (q : Nat)
    (h : s.queueAt q ≠ []) : q < s.queues.length := by
  by_contra hq
  exact h (by unfold Quark.Scheduler.queueAt; exact List.getD_eq_default _ _ (by omega))

theorem queueAt_scheduleQ_ne (s : Quark.Scheduler) (tid q r : Nat) (h : r ≠ q) :
    (s.scheduleQ tid q).queueAt r = s.queueAt r := by
  show (s.setQueue q (s.queueAt q ++ [tid])).queueAt r = s.queueAt r
  exact queueAt_setQueue_ne _ _ _ _ h

theorem getNextLoop_none_pres (c q count : Nat) :
    ∀ (fuel : Nat) (s s' : Quark.Scheduler),
      Quark.Scheduler.getNextLoop c q count s fuel = (none, s') →
      s'.tasks = s.tasks ∧ s'.currentTask = s.currentTask ∧
      s'.wakeOneCnt = s.wakeOneCnt ∧ s'.cpuRunning = s.cpuRunning ∧
      (∀ r, r ≠ q → s'.queueAt r = s.queueAt r) := by
  intro fuel
  induction fuel with
  | zero =>
    intro s s' h
    simp only [Quark.Scheduler.getNextLoop] at h
    cases h
    exact ⟨rfl, rfl, rfl, rfl, fun r _ => rfl⟩
  | succ n ih =>
    intro s s' h
    simp only [Quark.Scheduler.getNextLoop] at h
    cases hq : s.queueAt q with
    | nil =>
      rw [hq] at h
      cases h
      exact ⟨rfl, rfl, rfl, rfl, fun r _ => rfl⟩
    | cons tid rest =>
      rw [hq] at h
      simp only at h
      split_ifs at h with h1 h2 h3
      · cases h
      · cases h
      · cases h
      · have hmem := ih _ _ h
        refine ⟨hmem.1, hmem.2.1, hmem.2.2.1, hmem.2.2.2.1, ?_⟩
        intro r hr
        rw [hmem.2.2.2.2 r hr, queueAt_scheduleQ_ne _ _ _ _ hr]
        exact queueAt_setQueue_ne _ _ _ _ hr

theorem getNextLoop_some_steal (c q count : Nat) (hne : c ≠ q) :
    ∀ (fuel : Nat) (s s' : Quark.Scheduler) (t : Nat),
      Quark.Scheduler.getNextLoop c q count s fuel = (some t, s') →
      (s'.tasks t).queueId = c := by
  intro fuel
  induction fuel with
  | zero =>
    intro s s' t h
    simp only [Quark.Scheduler.getNextLoop] at h
    cases h
  | succ n ih =>
    intro s s' t h
    simp only [Quark.Scheduler.getNextLoop] at h
    cases hq : s.queueAt q with
    | nil => rw [hq] at h; cases h
    | cons tid rest =>
      rw [hq] at h
      simp only at h
      by_cases h1 : ((s.setQueue q rest).decReady).gatePass tid = true
      · rw [if_pos h1, if_pos hne] at h
        injection h with hfst hsnd
        injection hfst with hfst
        subst hfst
        subst hsnd
        unfold Quark.Scheduler.setQueueId
        simp
      · rw [if_neg h1] at h
        exact ih _ _ _ h

theorem getNextLoop_some_own (q count : Nat) :
    ∀ (fuel : Nat) (s s' : Quark.Scheduler) (t : Nat),
      Quark.Scheduler.getNextLoop q q count s fuel = (some t, s') →
      s'.wakeOneCnt = (if 1 < count then s.wakeOneCnt + 1 else s.wakeOneCnt) := by
  intro fuel
  induction fuel with
  | zero =>
    intro s s' t h
    simp only [Quark.Scheduler.getNextLoop] at h
    cases h
  | succ n ih =>
    intro s s' t h
    simp only [Quark.Scheduler.getNextLoop] at h
    cases hq : s.queueAt q with
    | nil => rw [hq] at h; cases h
    | cons tid rest =>
      rw [hq] at h
      simp only [ne_eq, not_true_eq_false, if_false] at h
      by_cases h1 : ((s.setQueue q rest).decReady).gatePass tid = true
      · rw [if_pos h1] at h
        by_cases h2 : 1 < count
        · rw [if_pos h2] at h
          injection h with hfst hsnd
          subst hsnd
          simp [h2]
          rfl
        · rw [if_neg h2] at h
          injection h with hfst hsnd
          subst hsnd
          simp [h2]
          rfl
      · rw [if_neg h1] at h
        have h4 := ih _ _ _ h
        exact h4

theorem getNextLoop_gate_some (c q count : Nat) :
    ∀ (fuel : Nat) (s : Quark.Scheduler),
      (∃ x ∈ (s.queueAt q).take fuel, s.gatePass x = true) →
      (Quark.Scheduler.getNextLoop c q count s fuel).1.isSome = true := by
  intro fuel
  induction fuel with
  | zero =>
    intro s h
    simp at h
  | succ n ih =>
    intro s h
    obtain ⟨x, hx, hgate⟩ := h
    simp only [Quark.Scheduler.getNextLoop]
    cases hq : s.queueAt q with
    | nil => rw [hq] at hx; simp at hx
    | cons tid rest =>
      rw [hq] at hx
      simp only
      by_cases h1 : ((s.setQueue q rest).decReady).gatePass tid = true
      · rw [if_pos h1]
        split_ifs <;> rfl
      · rw [if_neg h1]
        apply ih
        have hxr : x ∈ rest.take n := by
          have hx2 : x ∈ (tid :: rest).take (n + 1) := hx
          rw [List.take_succ_cons] at hx2
          rcases List.mem_cons.mp hx2 with hx0 | hxx
          · exfalso
            apply h1
            rw [hx0] at hgate
            exact hgate
          · exact hxx
        refine ⟨x, ?_, hgate⟩
        have hlt : q < s.queues.length :=
          queueAt_nonempty_lt s q (by rw [hq]; simp)
        have hqat : (((s.setQueue q rest).decReady).scheduleQ tid q).queueAt q =
            rest ++ [tid] := by
          have h2 : ((s.setQueue q rest).decReady).queueAt q = rest := by
            show (s.setQueue q rest).queueAt q = rest
            exact queueAt_setQueue_self s q rest hlt
          show (((s.setQueue q rest).decReady).setQueue q
              (((s.setQueue q rest).decReady).queueAt q ++ [tid])).queueAt q = rest ++ [tid]
          rw [h2]
          apply queueAt_setQueue_self
          show q < (s.queues.set q rest).length
          simpa using hlt
        rw [hqat, List.take_append_eq_append_take]
        exact List.mem_append_left _ hxr

theorem getNextForCpu_none_pres (s s' : Quark.Scheduler) (c q : Nat)
    (h : Quark.Scheduler.getNextForCpu s c q = (none, s')) :
    s'.tasks = s.tasks ∧ s'.currentTask = s.currentTask ∧
    s'.wakeOneCnt = s.wakeOneCnt ∧ s'.cpuRunning = s.cpuRunning ∧
    (∀ r, r ≠ q → s'.queueAt r = s.queueAt r) := by
  unfold Quark.Scheduler.getNextForCpu at h
  split_ifs at h with hguard
  · cases h
    exact ⟨rfl, rfl, rfl, rfl, fun r _ => rfl⟩
  · exact getNextLoop_none_pres _ _ _ _ _ _ h

theorem getNextForCpu_some_guard (s s' : Quark.Scheduler) (c q t : Nat)
    (h : Quark.Scheduler.getNextForCpu s c q = (some t, s')) :
    q = 0 ∨ c = q ∨ s.isRunning q = true := by
  unfold Quark.Scheduler.getNextForCpu at h
  split_ifs at h with hguard
  · cases h
  · push_neg at hguard
    by_cases hq0 : q = 0
    · exact Or.inl hq0
    · by_cases hcq : c = q
      · exact Or.inr (Or.inl hcq)
      · refine Or.inr (Or.inr ?_)
        have := hguard hq0 hcq
        simpa using this

theorem getNextForCpu_some_steal (s s' : Quark.Scheduler) (c q t : Nat)
    (hne : c ≠ q) (h : Quark.Scheduler.getNextForCpu s c q = (some t, s')) :
    (s'.tasks t).queueId = c := by
  unfold Quark.Scheduler.getNextForCpu at h
  split_ifs at h with hguard
  · cases h
  · exact getNextLoop_some_steal _ _ _ hne _ _ _ _ h

theorem getNextForCpu_some_own (s s' : Quark.Scheduler) (q t : Nat)
    (h : Quark.Scheduler.getNextForCpu s q q = (some t, s')) :
    s'.wakeOneCnt =
      (if 1 < (s.queueAt q).length then s.wakeOneCnt + 1 else s.wakeOneCnt) := by
  unfold Quark.Scheduler.getNextForCpu at h
  split_ifs at h with hguard
  · cases h
  · exact getNextLoop_some_own _ _ _ _ _ _ h

theorem getNextForCpu_own_gate_some (s : Quark.Scheduler) (q : Nat)
    (hready : 0 < s.readyLen q) :
    ((Quark.Scheduler.getNextForCpu s q q).1).isSome = true := by
  unfold Quark.Scheduler.getNextForCpu
  split_ifs with hguard
  · exact absurd rfl hguard.2.1
  · apply getNextLoop_gate_some
    unfold Quark.Scheduler.readyLen at hready
    rw [List.take_length]
    rcases List.length_pos_iff_exists_mem.mp hready with ⟨x, hx⟩
    exact ⟨x, (List.mem_filter.mp hx).1, (List.mem_filter.mp hx).2⟩

theorem getNextScan_some_props (v : Nat) :
    ∀ (qs : List Nat) (s s' : Quark.Scheduler) (t w : Nat),
      Quark.Scheduler.getNextScan v s qs = (some (t, w), s') →
      w ∈ qs ∧
      (w ≠ v → (s'.tasks t).queueId = v) ∧
      (w ≠ 0 → w = v ∨ s.isRunning w = true) := by
  intro qs
  induction qs with
  | nil =>
    intro s s' t w h
    simp only [Quark.Scheduler.getNextScan] at h
    cases h
  | cons q rest ih =>
    intro s s' t w h
    simp only [Quark.Scheduler.getNextScan] at h
    cases hc : Quark.Scheduler.getNextForCpu s v q with
    | mk o s1 =>
      rw [hc] at h
      cases o with
      | some t0 =>
        simp only at h
        injection h with hfst hsnd
        injection hfst with hpair
        injection hpair with h1 h2
        subst h1
        subst h2
        subst hsnd
        refine ⟨List.mem_cons_self _ _, ?_, ?_⟩
        · intro hne
          exact getNextForCpu_some_steal s s1 v q t0 hne.symm hc
        · intro hne
          rcases getNextForCpu_some_guard s s1 v q t0 hc with h0 | h0 | h0
          · exact absurd h0 hne
          · exact Or.inl h0.symm
          · exact Or.inr h0
      | none =>
        simp only at h
        have hr := ih s1 s' t w h
        have hpres := getNextForCpu_none_pres s s1 v q hc
        refine ⟨List.mem_cons_of_mem _ hr.1, hr.2.1, ?_⟩
        intro hne
        rcases hr.2.2 hne with h0 | h0
        · exact Or.inl h0
        · right
          rw [← h0]
          unfold Quark.Scheduler.isRunning
          rw [hpres.2.2.2.1]

theorem readyLen_le_len (s : Quark.Scheduler) (q : Nat) :
    s.readyLen q ≤ (s.queueAt q).length :=
  List.length_filter_le _ _

theorem readyLen_congr (s s1 : Quark.Scheduler) (q : Nat)
    (hq : s1.queueAt q = s.queueAt q) (ht : s1.tasks = s.tasks)
    (hc : s1.currentTask = s.currentTask) : s1.readyLen q = s.readyLen q := by
  unfold Quark.Scheduler.readyLen Quark.Scheduler.gatePass
  rw [hq, ht, hc]

/-! ## C4: scheduler work stealing -/

/-- C4 counterexample: `GetNext` on vCPU 1 steals the ready task of queue 0
although vCPU 0 is not in the `Running` state, because the check in
`GetNextForCpu` reads `vcpuId != 0 && currentCpuId != vcpuId && state !=
Running`, exempting queue 0.  This refutes the claim that a task is removed
from another vCPU queue only when that vCPU is `Running`. -/
theorem C4_scheduler_steal_counterexample :
    (({ vcpuCnt := 2, queues := [[10], []],
        tasks := fun tid => if tid = 10 then ⟨0, true⟩ else ⟨0, false⟩,
        cpuRunning := [false, true], currentTask := 99,
        readyCnt := 1, wakeOneCnt := 0 } : Quark.Scheduler).getNext 1).1 =
      some (10, 0) ∧
    ({ vcpuCnt := 2, queues := [[10], []],
       tasks := fun tid => if tid = 10 then ⟨0, true⟩ else ⟨0, false⟩,
       cpuRunning := [false, true], currentTask := 99,
       readyCnt := 1, wakeOneCnt := 0 } : Quark.Scheduler).isRunning 0 = false ∧
    ((({ vcpuCnt := 2, queues := [[10], []],
         tasks := fun tid => if tid = 10 then ⟨0, true⟩ else ⟨0, false⟩,
         cpuRunning := [false, true], currentTask := 99,
         readyCnt := 1, wakeOneCnt := 0 } : Quark.Scheduler).getNext 1).2.tasks
       10).queueId = 1 := by
  refine ⟨?_, ?_, ?_⟩ <;> rfl

/-- C4 amended: for every vCPU `v < vcpuCnt`, when `GetNext` returns a task
`t` taken from queue `w`: if `w ≠ v` (a steal) then either `w = 0` (queue 0 is
scanned regardless of vCPU 0's state) or vCPU `w` is in the `Running` state,
and the stolen task's `QueueId` is rewritten to `v`; if the task came from
`v`'s own queue and that queue held more than one ready task, `WakeOne` is
called exactly once. -/
theorem C4_scheduler_get_next (s : Quark.Scheduler) (v t w : Nat)
    (hv : v < s.vcpuCnt) (h : (s.getNext v).1 = some (t, w)) :
    (w ≠ v → (w = 0 ∨ s.isRunning w = true) ∧
      (((s.getNext v).2).tasks t).queueId = v) ∧
    (w = v → 1 < s.readyLen v →
      ((s.getNext v).2).wakeOneCnt = s.wakeOneCnt + 1) := by
  by_cases hrc : s.readyCnt = 0
  · unfold Quark.Scheduler.getNext at h
    rw [if_pos hrc] at h
    cases h
  · have hG : Quark.Scheduler.getNext s v =
        Quark.Scheduler.getNextScan v s
          (0 :: (List.range s.vcpuCnt).map (fun i => (v + i) % s.vcpuCnt)) := by
      unfold Quark.Scheduler.getNext
      rw [if_neg hrc]
    rcases hscan : Quark.Scheduler.getNextScan v s
        (0 :: (List.range s.vcpuCnt).map (fun i => (v + i) % s.vcpuCnt))
      with ⟨o, s2⟩
    rw [hG, hscan] at h
    simp only at h
    subst h
    rw [hG, hscan]
    constructor
    · intro hne
      have hp := getNextScan_some_props v _ s s2 t w hscan
      refine ⟨?_, hp.2.1 hne⟩
      by_cases h0 : w = 0
      · exact Or.inl h0
      · rcases hp.2.2 h0 with h1 | h1
        · exact absurd h1 hne
        · exact Or.inr h1
    · intro hwv hready
      obtain ⟨m, hm⟩ : ∃ m, s.vcpuCnt = m + 1 := ⟨s.vcpuCnt - 1, by omega⟩
      have hrange : List.range s.vcpuCnt = 0 :: (List.range m).map Nat.succ := by
        rw [hm, List.range_succ_eq_map]
      have hL2 : (List.range s.vcpuCnt).map (fun i => (v + i) % s.vcpuCnt) =
          v :: ((List.range m).map Nat.succ).map
            (fun i => (v + i) % s.vcpuCnt) := by
        rw [hrange, List.map_cons]
        congr 1
        show (v + 0) % s.vcpuCnt = v
        rw [Nat.add_zero]
        exact Nat.mod_eq_of_lt hv
      rw [hL2] at hscan
      simp only [Quark.Scheduler.getNextScan] at hscan
      rcases hc1 : Quark.Scheduler.getNextForCpu s v 0 with ⟨o1, s1⟩
      rw [hc1] at hscan
      by_cases hv0 : v = 0
      · subst hv0
        have hsome := getNextForCpu_own_gate_some s 0 (by omega)
        rw [hc1] at hsome
        simp only at hsome
        rcases Option.isSome_iff_exists.mp hsome with ⟨t0, ht0⟩
        subst ht0
        simp only at hscan
        injection hscan with hfst hsnd
        injection hfst with hpair
        injection hpair with he1 he2
        have hown := getNextForCpu_some_own s s1 0 t0 hc1
        rw [if_pos (lt_of_lt_of_le hready (readyLen_le_len s 0))] at hown
        rw [← hsnd]
        exact hown
      · cases o1 with
        | some t0 =>
          simp only at hscan
          injection hscan with hfst hsnd
          injection hfst with hpair
          injection hpair with he1 he2
          exfalso
          apply hv0
          rw [← hwv]
          exact he2.symm
        | none =>
          simp only at hscan
          have hpres := getNextForCpu_none_pres s s1 v 0 hc1
          have hq1 : s1.queueAt v = s.queueAt v := hpres.2.2.2.2 v hv0
          have hrl : s1.readyLen v = s.readyLen v :=
            readyLen_congr s s1 v hq1 hpres.1 hpres.2.1
          have hsome := getNextForCpu_own_gate_some s1 v (by omega)
          rcases hc2 : Quark.Scheduler.getNextForCpu s1 v v with ⟨o2, s3⟩
          rw [hc2] at hscan hsome
          simp only at hsome
          rcases Option.isSome_iff_exists.mp hsome with ⟨t2, ht2⟩
          subst ht2
          simp only at hscan
          injection hscan with hfst hsnd
          injection hfst with hpair
          injection hpair with he1 he2
          have hown := getNextForCpu_some_own s1 s3 v t2 hc2
          rw [hq1, if_pos (lt_of_lt_of_le hready (readyLen_le_len s v))] at hown
          rw [← hsnd, hown, hpres.2.2.1]

/-- Witness for C4 at a concrete input: vCPU 1 steals from queue 0 and the
stolen task's `QueueId` becomes 1. -/
theorem C4_scheduler_get_next_witness :
    ((0 : Nat) = 0 ∨
      ({ vcpuCnt := 2, queues := [[10], []],
         tasks := fun tid => if tid = 10 then ⟨0, true⟩ else ⟨0, false⟩,
         cpuRunning := [true, true], currentTask := 99,
         readyCnt := 1, wakeOneCnt := 0 } : Quark.Scheduler).isRunning 0 = true) ∧
    ((({ vcpuCnt := 2, queues := [[10], []],
         tasks := fun tid => if tid = 10 then ⟨0, true⟩ else ⟨0, false⟩,
         cpuRunning := [true, true], currentTask := 99,
         readyCnt := 1, wakeOneCnt := 0 } : Quark.Scheduler).getNext 1).2.tasks
       10).queueId = 1 :=
  (C4_scheduler_get_next
    { vcpuCnt := 2, queues := [[10], []],
      tasks := fun tid => if tid = 10 then ⟨0, true⟩ else ⟨0, false⟩,
      cpuRunning := [true, true], currentTask := 99,
      readyCnt := 1, wakeOneCnt := 0 } 1 10 0 (by decide) (by rfl)).1
    (by decide)

namespace Quark

/-! ## Socket state machine (socket.rs) -/

/-- The accept queue data relevant here: its capacity (`SetQueueLen` target)
and the latched error. -/
structure AcceptQueueM where
  queueLen : Nat
  err : Nat
  deriving DecidableEq, Repr

/-- `SocketBufType`: the per-socket buf-type variant.  The `Uring`/`RDMA`
payload (an `Arc<SocketBuff>`) carries no data relevant to the claims below
and is omitted. -/
inductive SockBufTypeM
  | Unknown
  | NoTCP
  | TCPInit
  | TCPNormalServer
  | TCPUringlServer (q : AcceptQueueM)
  | TCPRDMAServer (q : AcceptQueueM)
  | TCPNormalData
  | Uring
  | RDMA
  deriving DecidableEq, Repr

/-- `backlog` clamping in `Listen`: `let len = if backlog <= 0 { 5 } else
{ backlog }`. -/
def listenLen (backlog : Int) : Int := if backlog ≤ 0 then 5 else backlog

/-- Result of `Listen`: the call result, the buf-type afterwards, which host
call was issued, whether `AcceptInit` ran, the `enableAsyncAccept` flag
afterwards, and the argument passed to `SetQueueLen` (the configured accept
queue capacity). -/
structure ListenOut where
  ret : Except Nat Int
  bufType : SockBufTypeM
  hostListen : Bool
  hostRDMAListen : Bool
  acceptInitCalled : Bool
  enableAsyncAccept : Bool
  configuredLen : Nat
  deriving Repr

/-- `SocketOperations::Listen(backlog)`.  `cfgAsyncAccept`/`cfgEnableRDMA` are
the config switches, `isInetStream` is `(family == AF_INET || family ==
AF_INET6) && stype == SOCK_STREAM`, `enAsync` the socket's current
`enableAsyncAccept` flag, and `hostRes` the host `Listen`/`RDMAListen` return
(`AcceptInit` is assumed to succeed). -/
def Listen (cfgAsyncAccept cfgEnableRDMA isInetStream enAsync : Bool)
    (st : SockBufTypeM) (backlog : Int) (hostRes : Int) : ListenOut :=
  let asyncAccept := cfgAsyncAccept && isInetStream
  let enableRDMA := cfgEnableRDMA && isInetStream
  let len := (listenLen backlog).toNat
  match st with
  | .TCPUringlServer q =>
      { ret := Except.ok 0, bufType := .TCPUringlServer { q with queueLen := len },
        hostListen := false, hostRDMAListen := false, acceptInitCalled := false,
        enableAsyncAccept := enAsync, configuredLen := len }
  | .TCPRDMAServer q =>
      { ret := Except.ok 0, bufType := .TCPRDMAServer { q with queueLen := len },
        hostListen := false, hostRDMAListen := false, acceptInitCalled := false,
        enableAsyncAccept := enAsync, configuredLen := len }
  | _ =>
      -- `TCPInit` and every other state fall through to `AcceptQueue::default()`
      let q : AcceptQueueM := { queueLen := len, err := 0 }
      if hostRes < 0 then
        { ret := Except.error (-hostRes).toNat, bufType := st,
          hostListen := !enableRDMA, hostRDMAListen := enableRDMA,
          acceptInitCalled := false, enableAsyncAccept := enAsync,
          configuredLen := len }
      else if enableRDMA then
        { ret := Except.ok hostRes, bufType := .TCPRDMAServer q,
          hostListen := false, hostRDMAListen := true, acceptInitCalled := false,
          enableAsyncAccept := enAsync, configuredLen := len }
      else if asyncAccept then
        { ret := Except.ok hostRes, bufType := .TCPUringlServer q,
          hostListen := true, hostRDMAListen := false,
          acceptInitCalled := !enAsync, enableAsyncAccept := true,
          configuredLen := len }
      else
        { ret := Except.ok hostRes, bufType := .TCPNormalServer,
          hostListen := true, hostRDMAListen := false, acceptInitCalled := false,
          enableAsyncAccept := enAsync, configuredLen := len }

/-! ## Accept (socket.rs) -/

/-- One result of `AcceptData()`: no connection ready (`EAGAIN`), another
error, or an accepted item (represented by its fd). -/
inductive AcceptRes
  | eagain
  | fail (e : Nat)
  | item (fd : Nat)
  deriving DecidableEq, Repr

/-- Result of `Accept`: the returned fd or error, whether an event entry was
registered, and how many times the caller blocked. -/
structure AcceptOut where
  result : Except Nat Nat
  eventRegistered : Bool
  blockCalls : Nat
  deriving Repr

/-- The blocking `loop` of `Accept`: try `AcceptData`, on `EAGAIN` block and
retry, on another error return it, on success use the item.  `acceptData k` is
the k-th `AcceptData` result, `blockRes k` the k-th `BlockWithMonoTimer`
result (`none` = woken normally).  Fuel bounds the iterations; exhaustion
yields `error 0` (unreachable in the scenarios proved below). -/
def acceptLoop (acceptData : Nat → AcceptRes) (blockRes : Nat → Option Nat) :
    Nat → Nat → AcceptOut
  | _, 0 => { result := Except.error 0, eventRegistered := true, blockCalls := 0 }
  | k, fuel + 1 =>
    match acceptData k with
    | .fail e => { result := Except.error e, eventRegistered := true,
                   blockCalls := k }
    | .item fd => { result := Except.ok fd, eventRegistered := true,
                    blockCalls := k }
    | .eagain =>
      match blockRes k with
      | some e => { result := Except.error e, eventRegistered := true,
                    blockCalls := k + 1 }
      | none =>
        let out := acceptLoop acceptData blockRes (k + 1) fuel
        { out with blockCalls := out.blockCalls + 1 }

/-- `SocketOperations::Accept(addr, addrlen, flags, blocking)`, with the
address copy and child-file creation abstracted into the returned fd.  The
non-blocking path consults `AcceptData` once and maps `EAGAIN` to
`SysError(EAGAIN)` via the (redundant) inner `if !blocking` check without
registering an event or blocking. -/
def Accept (blocking : Bool) (acceptData : Nat → AcceptRes)
    (blockRes : Nat → Option Nat) (fuel : Nat) : AcceptOut :=
  if !blocking then
    match acceptData 0 with
    | .eagain =>
      if !blocking then
        { result := Except.error 11, eventRegistered := false, blockCalls := 0 }
      else
        -- dead in the source: the arm falls through with the default item
        { result := Except.ok 0, eventRegistered := false, blockCalls := 0 }
    | .fail e => { result := Except.error e, eventRegistered := false,
                   blockCalls := 0 }
    | .item fd => { result := Except.ok fd, eventRegistered := false,
                    blockCalls := 0 }
  else
    acceptLoop acceptData blockRes 0 fuel

end Quark

/-! ## C5: Listen backlog clamp -/

/-- C5 counterexample: `listen(backlog = 3)` on a `TCPInit` socket (async
accept on) configures an accept-queue capacity of 3, which is less than 5,
refuting the claim that the capacity is never less than 5. -/
theorem C5_listen_backlog_counterexample :
    (Quark.Listen true false true false Quark.SockBufTypeM.TCPInit 3 0).configuredLen
      = 3 ∧
    (Quark.Listen true false true false Quark.SockBufTypeM.TCPInit 3 0).bufType =
      Quark.SockBufTypeM.TCPUringlServer ⟨3, 0⟩ ∧
    ¬ 5 ≤ (Quark.Listen true false true false
        Quark.SockBufTypeM.TCPInit 3 0).configuredLen :=
  ⟨rfl, rfl, by decide⟩

/-- C5 amended: `Listen(backlog)` on a `TCPInit` socket sets the accept-queue
capacity to 5 whenever `backlog ≤ 0`, and to `backlog` itself otherwise (so
for `0 < backlog < 5` the capacity is below 5). -/
theorem C5_listen_backlog (cfgA cfgR inet enA : Bool) (backlog hostRes : Int) :
    (backlog ≤ 0 →
      (Quark.Listen cfgA cfgR inet enA Quark.SockBufTypeM.TCPInit backlog
        hostRes).configuredLen = 5) ∧
    (0 < backlog →
      (Quark.Listen cfgA cfgR inet enA Quark.SockBufTypeM.TCPInit backlog
        hostRes).configuredLen = backlog.toNat) := by
  have hc : (Quark.Listen cfgA cfgR inet enA Quark.SockBufTypeM.TCPInit backlog
      hostRes).configuredLen = (Quark.listenLen backlog).toNat := by
    simp only [Quark.Listen]
    split_ifs <;> rfl
  constructor
  · intro hb
    rw [hc]
    unfold Quark.listenLen
    rw [if_pos hb]
    rfl
  · intro hb
    rw [hc]
    unfold Quark.listenLen
    rw [if_neg (by omega)]

/-- Witness for C5 amended at a concrete input: a negative backlog yields
capacity 5. -/
theorem C5_listen_backlog_witness :
    (Quark.Listen true false true false Quark.SockBufTypeM.TCPInit (-1)
      0).configuredLen = 5 :=
  (C5_listen_backlog true false true false (-1) 0).1 (by decide)

/-! ## C6: re-listen on a server socket -/

/-- C6: a second `Listen(backlog)` on a socket already in a server state
carrying an accept queue (`TCPUringlServer` or `TCPRDMAServer`) only resizes
that queue's capacity and returns 0: the variant is kept, the error latch and
the `enableAsyncAccept` flag are unchanged, and no host `Listen`/`RDMAListen`
or `AcceptInit` call is issued. -/
theorem C6_relisten_resizes_only (cfgA cfgR inet enA : Bool)
    (q : Quark.AcceptQueueM) (backlog hostRes : Int) :
    Quark.Listen cfgA cfgR inet enA (Quark.SockBufTypeM.TCPUringlServer q)
        backlog hostRes =
      { ret := Except.ok 0,
        bufType := Quark.SockBufTypeM.TCPUringlServer
          { q with queueLen := (Quark.listenLen backlog).toNat },
        hostListen := false, hostRDMAListen := false, acceptInitCalled := false,
        enableAsyncAccept := enA,
        configuredLen := (Quark.listenLen backlog).toNat } ∧
    Quark.Listen cfgA cfgR inet enA (Quark.SockBufTypeM.TCPRDMAServer q)
        backlog hostRes =
      { ret := Except.ok 0,
        bufType := Quark.SockBufTypeM.TCPRDMAServer
          { q with queueLen := (Quark.listenLen backlog).toNat },
        hostListen := false, hostRDMAListen := false, acceptInitCalled := false,
        enableAsyncAccept := enA,
        configuredLen := (Quark.listenLen backlog).toNat } :=
  ⟨rfl, rfl⟩

/-! ## C7: non-blocking Accept with empty queue -/

/-- C7: `Accept` with `blocking = false` on a socket whose accept source has
no ready connection (`AcceptData` yields `EAGAIN`) returns `SysError(EAGAIN)`
without registering any event entry and without blocking. -/
theorem C7_accept_nonblocking_eagain (acceptData : Nat → Quark.AcceptRes)
    (blockRes : Nat → Option Nat) (fuel : Nat)
    (h : acceptData 0 = Quark.AcceptRes.eagain) :
    Quark.Accept false acceptData blockRes fuel =
      { result := Except.error 11, eventRegistered := false,
        blockCalls := 0 } := by
  simp [Quark.Accept, h]

/-- Witness for C7 at a concrete input. -/
theorem C7_accept_nonblocking_eagain_witness :
    Quark.Accept false (fun _ => Quark.AcceptRes.eagain) (fun _ => none) 4 =
      { result := Except.error 11, eventRegistered := false,
        blockCalls := 0 } :=
  C7_accept_nonblocking_eagain (fun _ => Quark.AcceptRes.eagain)
    (fun _ => none) 4 rfl

namespace Quark

/-! ## RecvMsg (socket.rs) -/

/-- The guest-kernel errors that reach the `RecvMsg` wait handlers: a Linux
errno (`Error::SysError`) or an interruption (`Error::ErrInterrupted`). -/
inductive KErr
  | sys (n : Nat)
  | intr
  deriving DecidableEq, Repr

/-- One `ReadFromBuf` outcome: `EWOULDBLOCK`, another error, or `n` bytes. -/
inductive RRes
  | wouldBlock
  | fail (e : KErr)
  | bytes (n : Nat)
  deriving DecidableEq, Repr

/-- The `match` on a failed `BlockWithMonoTimer` inside the buffered `RecvMsg`
loop (`count > 0` breaks out returning the count; `ETIMEDOUT` becomes
`EAGAIN`; `ErrInterrupted` becomes `ERESTARTSYS`; anything else is passed
through).  `110 = ETIMEDOUT`, `11 = EAGAIN`, `512 = ERESTARTSYS`. -/
def recvBlockHandle (count : Nat) (e : KErr) : Except KErr Nat :=
  if 0 < count then Except.ok count
  else
    match e with
    | KErr.sys n => if n = 110 then Except.error (KErr.sys 11)
                    else Except.error (KErr.sys n)
    | KErr.intr => Except.error (KErr.sys 512)

/-- The `match` on a failed `BlockWithMonoTimer` in the non-buffered
`RecvMsg` host loop. -/
def recvHostBlockHandle (e : KErr) : Except KErr Nat :=
  match e with
  | KErr.intr => Except.error (KErr.sys 512)
  | KErr.sys n => if n = 110 then Except.error (KErr.sys 11)
                  else Except.error (KErr.sys n)

/-- The first (pre-registration) read loop of the buffered `RecvMsg` path.
`reads k` is the k-th `ReadFromBuf` result, `len` the iov byte total, `k`/`c`
the read index and accumulated count.  `Sum.inl` is an early return,
`Sum.inr (k, c)` proceeds to the registered phase.  Fuel exhaustion proceeds
with the current state. -/
def recvPhase1 (dontwait : Bool) (len : Nat) (reads : Nat → RRes) :
    Nat → Nat → Nat → (Except KErr Nat) ⊕ (Nat × Nat)
  | 0, k, c => Sum.inr (k, c)
  | fuel + 1, k, c =>
    match reads k with
    | .wouldBlock =>
      if dontwait then
        if 0 < c then Sum.inl (Except.ok c)
        else Sum.inl (Except.error (KErr.sys 11))
      else Sum.inr (k + 1, c)
    | .fail e =>
      if 0 < c then Sum.inl (Except.ok c) else Sum.inl (Except.error e)
    | .bytes n =>
      if n = 0 then Sum.inl (Except.ok c)
      else if c + n = len then Sum.inl (Except.ok (c + n))
      else recvPhase1 dontwait len reads fuel (k + 1) (c + n)

/-- The inner read loop of the registered phase: `Sum.inl` returns from
`RecvMsg`, `Sum.inr (exitMain, k, c)` either breaks out of the outer loop
with count `c` (`exitMain = true`) or falls through to the block call. -/
def recvInner (len : Nat) (reads : Nat → RRes) :
    Nat → Nat → Nat → (Except KErr Nat) ⊕ (Bool × Nat × Nat)
  | 0, k, c => Sum.inr (true, k, c)
  | fuel + 1, k, c =>
    match reads k with
    | .wouldBlock =>
      if 0 < c then Sum.inr (true, k + 1, c) else Sum.inr (false, k + 1, c)
    | .fail e =>
      if 0 < c then Sum.inr (true, k + 1, c) else Sum.inl (Except.error e)
    | .bytes n =>
      if n = 0 then Sum.inr (true, k + 1, c)
      else if c + n = len then Sum.inr (true, k + 1, c + n)
      else recvInner len reads fuel (k + 1) (c + n)

/-- The outer registered loop of the buffered `RecvMsg` path: run the inner
read loop, then `BlockWithMonoTimer` (`blocks b = none` means woken normally,
`some e` a failure handled by `recvBlockHandle`). -/
def recvMain (len : Nat) (reads : Nat → RRes) (blocks : Nat → Option KErr) :
    Nat → Nat → Nat → Nat → Except KErr Nat
  | 0, _, _, c => Except.ok c
  | fuel + 1, k, b, c =>
    match recvInner len reads (fuel + 1) k c with
    | Sum.inl r => r
    | Sum.inr (true, _, c2) => Except.ok c2
    | Sum.inr (false, k2, c2) =>
      match blocks b with
      | some e => recvBlockHandle c2 e
      | none => recvMain len reads blocks fuel k2 (b + 1) c2

/-- The buffered branch of `SocketOperations::RecvMsg` (`SocketBufEnabled`),
with the iov bookkeeping folded into the byte counts. -/
def recvMsgBuffered (dontwait : Bool) (len : Nat) (reads : Nat → RRes)
    (blocks : Nat → Option KErr) (fuel : Nat) : Except KErr Nat :=
  match recvPhase1 dontwait len reads fuel 0 0 with
  | Sum.inl r => r
  | Sum.inr (k, c) => recvMain len reads blocks fuel k 0 c

/-! ## SetSockOpt / RecvTimeout (socket.rs) -/

/-- `Timeval` as copied in from the option buffer. -/
structure Timeval where
  sec : Int
  usec : Int
  deriving DecidableEq, Repr

/-- Modelled from the spec: `Timeval::ToDuration` converts the timeval to
nanoseconds (`qlib/linux/time.rs` is not part of this code drop; spec:
`RecvTimeout() == tv.to_ns()`). -/
def Timeval.ToDuration (tv : Timeval) : Int :=
  tv.sec * 1000000000 + tv.usec * 1000

/-- The socket fields touched by `SetSockOpt`: the atomic `send`/`recv`
timeouts (ns) and the `passInq` flag. -/
structure SockTimeouts where
  send : Int
  recv : Int
  passInq : Bool
  deriving DecidableEq, Repr

/-- `SocketOperations::SetRecvTimeout`. -/
def SetRecvTimeout (st : SockTimeouts) (ns : Int) : SockTimeouts :=
  { st with recv := ns }

/-- `SocketOperations::RecvTimeout`. -/
def RecvTimeout (st : SockTimeouts) : Int := st.recv

/-- `SocketOperations::SetSockOpt(level, name, opt)`.  `optLen` is the option
buffer length, `tv` the `Timeval` at its start (as read by `CopyInObj`),
`optInt` the i32 at its start, `hostRes` the host `SetSockOpt` return.
Constants: `SOL_SOCKET = 1`, `SO_RCVTIMEO = 20`, `SIZEOF_TIMEVAL = 16`,
`SOL_TCP = 6`, `TCP_INQ = 36`.  Note the recv timeout is stored before the
host call is attempted. -/
def SetSockOptM (st : SockTimeouts) (level name : Nat) (optLen : Nat)
    (tv : Timeval) (optInt : Int) (hostRes : Int) :
    Except Nat Int × SockTimeouts :=
  if level = 1 ∧ name = 20 then
    if 16 ≤ optLen then
      let st1 := SetRecvTimeout st tv.ToDuration
      let st2 := if level = 6 ∧ name = 36 then { st1 with passInq := optInt == 1 }
                 else st1
      if hostRes < 0 then (Except.error (-hostRes).toNat, st2)
      else (Except.ok hostRes, st2)
    else (Except.error 22, st)
  else
    let st2 := if level = 6 ∧ name = 36 then { st with passInq := optInt == 1 }
               else st
    if hostRes < 0 then (Except.error (-hostRes).toNat, st2)
    else (Except.ok hostRes, st2)

/-! ## Shutdown (socket.rs) -/

/-- `SocketOperations::SocketBuf()` returns the shared buffer only for the
`Uring`/`RDMA` variants and panics otherwise. -/
def SocketBufOf : SockBufTypeM → Option Unit
  | .Uring => some ()
  | .RDMA => some ()
  | _ => none

/-- Outcome of `Shutdown`. -/
inductive ShutdownRes
  | panicked
  | done (res : Int)
  | sysErr (e : Nat)
  | einval
  deriving DecidableEq, Repr

/-- The host-call tail of `Shutdown`: `SHUT_RD = 0`, `SHUT_WR = 1`,
`SHUT_RDWR = 2`; any other `how` yields `EINVAL` without a host call. -/
def shutdownHostTail (how : Nat) (hostRes : Int) : ShutdownRes :=
  if how = 0 ∨ how = 1 ∨ how = 2 then
    if hostRes < 0 then ShutdownRes.sysErr (-hostRes).toNat
    else ShutdownRes.done hostRes
  else ShutdownRes.einval

/-- Result of `Shutdown` with its observable side effects. -/
structure ShutdownOut where
  res : ShutdownRes
  pendingShutdownSet : Bool
  hostCalled : Bool
  deriving DecidableEq, Repr

/-- `SocketOperations::Shutdown(how)`.  For `SHUT_WR`/`SHUT_RDWR` the source
first evaluates `self.SocketBuf().HasWriteData()`, which panics on every
non-buffered variant; on a buffered socket with pending write data it sets
the pending-write-shutdown bit and blocks until the ring drains (the drain
loop is summarised by `pendingShutdownSet`), then issues the host
shutdown. -/
def ShutdownM (st : SockBufTypeM) (how : Nat) (hasWriteData : Bool)
    (hostRes : Int) : ShutdownOut :=
  if how = 1 ∨ how = 2 then
    match SocketBufOf st with
    | none => { res := ShutdownRes.panicked, pendingShutdownSet := false,
                hostCalled := false }
    | some _ =>
      { res := shutdownHostTail how hostRes,
        pendingShutdownSet := hasWriteData, hostCalled := true }
  else
    { res := shutdownHostTail how hostRes, pendingShutdownSet := false,
      hostCalled := decide (how = 0) }

end Quark

/-! ## C8: RecvMsg wait-failure translation -/

/-- C8: for a blocking `RecvMsg`, a wait that ends by deadline expiry
(`ETIMEDOUT = 110`) with no bytes received returns `SysError(EAGAIN = 11)`; a
wait that ends by interruption with no bytes received returns
`SysError(ERESTARTSYS = 512)`; and when bytes were already copied the call
returns that positive count instead — both for the buffered handler (which
checks the accumulated count first) and the non-buffered host-loop handler.
The last two conjuncts run the whole buffered loop: an all-would-block socket
whose first wait fails lands in the handler with count 0, and a socket that
delivered 7 bytes returns 7 without the wait error surfacing. -/
theorem C8_recvmsg_wait_errors :
    (∀ (c : Nat) (e : Quark.KErr),
      (c = 0 → e = Quark.KErr.sys 110 →
        Quark.recvBlockHandle c e = Except.error (Quark.KErr.sys 11)) ∧
      (c = 0 → e = Quark.KErr.intr →
        Quark.recvBlockHandle c e = Except.error (Quark.KErr.sys 512)) ∧
      (0 < c → Quark.recvBlockHandle c e = Except.ok c)) ∧
    (∀ e : Quark.KErr,
      (e = Quark.KErr.sys 110 →
        Quark.recvHostBlockHandle e = Except.error (Quark.KErr.sys 11)) ∧
      (e = Quark.KErr.intr →
        Quark.recvHostBlockHandle e = Except.error (Quark.KErr.sys 512))) ∧
    (∀ (len fuel : Nat) (e : Quark.KErr),
      Quark.recvMsgBuffered false len (fun _ => Quark.RRes.wouldBlock)
        (fun _ => some e) (fuel + 1) = Quark.recvBlockHandle 0 e) ∧
    Quark.recvMsgBuffered false 16
      (fun k => if k = 0 then Quark.RRes.bytes 7 else Quark.RRes.wouldBlock)
      (fun _ => some (Quark.KErr.sys 110)) 5 = Except.ok 7 := by
  refine ⟨?_, ?_, ?_, ?_⟩
  · intro c e
    refine ⟨?_, ?_, ?_⟩
    · rintro rfl rfl; rfl
    · rintro rfl rfl; rfl
    · intro hc
      unfold Quark.recvBlockHandle
      rw [if_pos hc]
  · intro e
    constructor
    · rintro rfl; rfl
    · rintro rfl; rfl
  · intro len fuel e
    simp [Quark.recvMsgBuffered, Quark.recvPhase1, Quark.recvMain,
      Quark.recvInner]
  · rfl

/-- Witness for C8 at concrete inputs. -/
theorem C8_recvmsg_wait_errors_witness :
    Quark.recvBlockHandle 0 (Quark.KErr.sys 110) =
      Except.error (Quark.KErr.sys 11) ∧
    Quark.recvBlockHandle 0 Quark.KErr.intr =
      Except.error (Quark.KErr.sys 512) ∧
    Quark.recvBlockHandle 9 (Quark.KErr.sys 110) = Except.ok 9 ∧
    Quark.recvMsgBuffered false 16 (fun _ => Quark.RRes.wouldBlock)
      (fun _ => some Quark.KErr.intr) 3 = Quark.recvBlockHandle 0 Quark.KErr.intr :=
  ⟨(C8_recvmsg_wait_errors.1 0 (Quark.KErr.sys 110)).1 rfl rfl,
   (C8_recvmsg_wait_errors.1 0 Quark.KErr.intr).2.1 rfl rfl,
   (C8_recvmsg_wait_errors.1 9 (Quark.KErr.sys 110)).2.2 (by decide),
   C8_recvmsg_wait_errors.2.2.1 16 2 Quark.KErr.intr⟩

/-! ## C9: SO_RCVTIMEO round trip -/

/-- C9: for every timeval whose option buffer is at least `SIZEOF_TIMEVAL`
(16) bytes, after `SetSockOpt(SOL_SOCKET, SO_RCVTIMEO, tv)` succeeds,
`RecvTimeout()` returns `tv.ToDuration()` (the timeval in nanoseconds). -/
theorem C9_rcvtimeo_roundtrip (st : Quark.SockTimeouts) (tv : Quark.Timeval)
    (optLen : Nat) (optInt hostRes : Int)
    (hlen : 16 ≤ optLen) (hres : 0 ≤ hostRes) :
    (Quark.SetSockOptM st 1 20 optLen tv optInt hostRes).1 =
      Except.ok hostRes ∧
    Quark.RecvTimeout (Quark.SetSockOptM st 1 20 optLen tv optInt
      hostRes).2 = tv.ToDuration := by
  unfold Quark.SetSockOptM
  rw [if_pos ⟨rfl, rfl⟩, if_pos hlen]
  simp only [if_neg (show ¬ hostRes < 0 by omega)]
  exact ⟨trivial, rfl⟩

/-- Witness for C9 at a concrete input. -/
theorem C9_rcvtimeo_roundtrip_witness :
    (Quark.SetSockOptM ⟨0, 0, false⟩ 1 20 16 ⟨2, 3⟩ 0 0).1 = Except.ok 0 ∧
    Quark.RecvTimeout (Quark.SetSockOptM ⟨0, 0, false⟩ 1 20 16 ⟨2, 3⟩ 0 0).2 =
      Quark.Timeval.ToDuration ⟨2, 3⟩ :=
  C9_rcvtimeo_roundtrip ⟨0, 0, false⟩ ⟨2, 3⟩ 16 0 0 (by decide) (by decide)

/-! ## C10: Shutdown on non-buffered sockets -/

/-- C10: for every socket whose buf-type is neither `Uring` nor `RDMA`,
`Shutdown` with `how = SHUT_WR` (1) or `SHUT_RDWR` (2) panics inside
`SocketBuf()` before any host shutdown call; `SHUT_RD` (0) is unaffected and
reaches the host shutdown. -/
theorem C10_shutdown_nonbuffered_panics (st : Quark.SockBufTypeM) (how : Nat)
    (hwd : Bool) (hostRes : Int)
    (hnb : st ≠ Quark.SockBufTypeM.Uring ∧ st ≠ Quark.SockBufTypeM.RDMA) :
    ((how = 1 ∨ how = 2) →
      Quark.ShutdownM st how hwd hostRes =
        { res := Quark.ShutdownRes.panicked, pendingShutdownSet := false,
          hostCalled := false }) ∧
    (how = 0 →
      Quark.ShutdownM st how hwd hostRes =
        { res := Quark.shutdownHostTail 0 hostRes,
          pendingShutdownSet := false, hostCalled := true }) := by
  have hb : Quark.SocketBufOf st = none := by
    cases st <;> first
      | rfl
      | exact absurd rfl hnb.1
      | exact absurd rfl hnb.2
  constructor
  · intro hh
    unfold Quark.ShutdownM
    rw [if_pos hh, hb]
  · rintro rfl
    unfold Quark.ShutdownM
    rw [if_neg (by omega)]
    rfl

/-- Witness for C10 at concrete inputs: a plain `TCPNormalData` socket panics
on `SHUT_WR` and reaches the host on `SHUT_RD`. -/
theorem C10_shutdown_nonbuffered_panics_witness :
    Quark.ShutdownM Quark.SockBufTypeM.TCPNormalData 1 false 0 =
      { res := Quark.ShutdownRes.panicked, pendingShutdownSet := false,
        hostCalled := false } ∧
    Quark.ShutdownM Quark.SockBufTypeM.TCPNormalData 0 false 0 =
      { res := Quark.shutdownHostTail 0 0, pendingShutdownSet := false,
        hostCalled := true } :=
  ⟨(C10_shutdown_nonbuffered_panics Quark.SockBufTypeM.TCPNormalData 1 false 0
      ⟨by decide, by decide⟩).1 (Or.inl rfl),
   (C10_shutdown_nonbuffered_panics Quark.SockBufTypeM.TCPNormalData 0 false 0
      ⟨by decide, by decide⟩).2 rfl⟩
